import Mathlib

/-!
# Verification of the `local-db` shared store registry

A shallow embedding of the core of the `@bigbang-sdk/local-db` package:

* `src/app/use-local-db.ts` — the `isEqual` equality contract and the
  `isValid` predicate built from the schema;
* the store registry (`regKey`, `getStore`) with its per-record
  `setValue`, `hydrate` and broadcast message handler;
* `src/app/components/idb.ts` — defaults `DEFAULT_DB` / `DEFAULT_STORE`.

JavaScript values relevant to the equality contract are modelled by
`JsVal` (primitives by value, objects by a reference number, `NaN`
explicitly since it matters for `===` and falsiness).  The store record
is modelled as a labelled transition function `step` on configurations
`Cfg`, emitting an event trace `List (Ev T)` in JavaScript execution
order: an `async` function body runs synchronously up to its first
`await`, so in `setValue` the call into `idbSet` (the durable-store
driver) is issued before `notify()`, while the broadcast `postMessage`
happens in a later microtask.
-/

namespace LocalDb

/-! ## JS value model and the equality contract (`isEqual`) -/

/-- A model of the JavaScript values seen by `isEqual`: `null`,
`undefined`, booleans, numbers (integers plus an explicit `NaN`),
strings, and objects identified by a reference number. -/
inductive JsVal where
  | vnull
  | vundef
  | vbool (b : Bool)
  | vnum (n : Int)
  | vnan
  | vstr (s : String)
  | vobj (r : Nat)
deriving DecidableEq

/-- JavaScript strict equality `===`: value equality on primitives,
reference equality on objects, and `NaN === x` is always false. -/
def strictEq : JsVal → JsVal → Bool
  | .vnull, .vnull => true
  | .vundef, .vundef => true
  | .vbool a, .vbool b => a == b
  | .vnum a, .vnum b => a == b
  | .vstr a, .vstr b => a == b
  | .vobj a, .vobj b => a == b
  | _, _ => false

/-- JavaScript falsiness: `null`, `undefined`, `false`, `0`, `NaN`, `""`. -/
def falsy : JsVal → Bool
  | .vnull => true
  | .vundef => true
  | .vbool b => !b
  | .vnum n => n == 0
  | .vnan => true
  | .vstr s => s == ""
  | _ => false

/-- `typeof x === "object"` — true for objects and for `null`. -/
def typeofObject : JsVal → Bool
  | .vobj _ => true
  | .vnull => true
  | _ => false

/-- The equality function of `use-local-db.ts` (lines 30–38), with the
external `fast-deep-equal` library abstracted as the parameter `deepEq`:

```
if (a === b) return true;
if (!a || !b) return false;
if (typeof a !== "object" || typeof b !== "object") return false;
return deepEqual(a, b);
``` -/
def isEqualJs (deepEq : JsVal → JsVal → Bool) (a b : JsVal) : Bool :=
  if strictEq a b then true
  else if falsy a || falsy b then false
  else if !typeofObject a || !typeofObject b then false
  else deepEq a b

/-- `absent/missing` in the spec's equality contract: `null` or `undefined`. -/
def isAbsent : JsVal → Bool
  | .vnull => true
  | .vundef => true
  | _ => false

/-- A structurally composite value (a real object). -/
def isComposite : JsVal → Bool
  | .vobj _ => true
  | _ => false

/-- Modelled from the spec's words (§4.2 equality contract), for
comparison with `isEqualJs`: equal when reference-identical; otherwise
unequal when either operand is absent/missing; otherwise deep structural
equality when both are composite; otherwise strict value equality. -/
def specEqual (deepEq : JsVal → JsVal → Bool) (a b : JsVal) : Bool :=
  if strictEq a b then true
  else if isAbsent a || isAbsent b then false
  else if isComposite a && isComposite b then deepEq a b
  else strictEq a b

/-! ## Store identity and the registry (`store-registry.ts`) -/

/-- `DEFAULT_DB` from `idb.ts`. -/
def DEFAULT_DB : String := "local-db"

/-- `DEFAULT_STORE` from `idb.ts`. -/
def DEFAULT_STORE : String := "local-db"

/-- The optional namespace `{ dbName?, storeName? }`. -/
structure Ns where
  dbName : Option String
  storeName : Option String
deriving DecidableEq

/-- `regKey` from `store-registry.ts` (lines 80–84):
`` `${db}/${st}|${key}` `` with the defaults applied. -/
def regKey (key : String) (ns : Ns) : String :=
  (ns.dbName.getD DEFAULT_DB) ++ "/" ++ (ns.storeName.getD DEFAULT_STORE) ++ "|" ++ key

/-- The identity triple of a request, with defaults applied:
`(databaseName, storeName, logicalKey)`. -/
def identTriple (key : String) (ns : Ns) : String × String × String :=
  (ns.dbName.getD DEFAULT_DB, ns.storeName.getD DEFAULT_STORE, key)

/-- The `stores` map of the registry, with records identified by an
allocation number standing for JavaScript object identity. -/
structure Registry where
  entries : List (String × Nat)
  nextId : Nat

/-- The empty registry (module initialisation state). -/
def Registry.empty : Registry := ⟨[], 0⟩

/-- `stores.get` on the association-list model. -/
def lookupKey : List (String × Nat) → String → Option Nat
  | [], _ => none
  | (k', v) :: rest, k => if k' = k then some v else lookupKey rest k

/-- `getStore` (lines 101–110 of `store-registry.ts`), reduced to record
identity: return the existing record for `regKey key ns` if present,
otherwise allocate a fresh one and register it. -/
def getStoreId (r : Registry) (key : String) (ns : Ns) : Nat × Registry :=
  let k := regKey key ns
  match lookupKey r.entries k with
  | some v => (v, r)
  | none => (r.nextId, { entries := (k, r.nextId) :: r.entries, nextId := r.nextId + 1 })

/-- Two independent `getStore` requests against a fresh registry; the
pair of record identities they yield. -/
def twoRequests (k1 : String) (ns1 : Ns) (k2 : String) (ns2 : Ns) : Nat × Nat :=
  let p1 := getStoreId Registry.empty k1 ns1
  let p2 := getStoreId p1.2 k2 ns2
  (p1.1, p2.1)

/-! ## The store record state machine -/

/-- `state.value : T | null | undefined` — `undefined` is the hydrating
sentinel, `null` is the explicit absent value. -/
inductive StoreVal (T : Type) where
  | hydrating
  | absent
  | val (t : T)
deriving DecidableEq

/-- Coerce a `T | null` value (as passed to `setValue`, stored in
`repairTo`, persisted, broadcast) into the tri-state value. -/
def ofOpt {T : Type} : Option T → StoreVal T
  | none => .absent
  | some t => .val t

/-- The record's captured collaborators and ambient capabilities:
`key` — the logical key; `isValid` — the schema predicate as lifted in
`use-local-db.ts` (null is always valid there, but we keep it opaque as
the registry does); `isEqual` — the equality contract; `isBrowser` —
`typeof window !== "undefined"`; `bcAvail` — `getBroadcastChannel(ns)`
returns a channel (only possible in a browser). -/
structure Params (T : Type) where
  key : String
  isValid : Option T → Bool
  isEqual : StoreVal T → StoreVal T → Bool
  isBrowser : Bool
  bcAvail : Bool

/-- The mutable configuration of one store record: the `StoreState`
fields (`value`, `repairTo`, `hydrated`; listeners are abstracted into
`notify` events) plus two bookkeeping flags: `loadPending` — the async
load started by `hydrate` has been issued and not yet completed;
`subscribed` — the broadcast handler has been attached. -/
structure Cfg (T : Type) where
  value : StoreVal T
  repairTo : Option T
  hydrated : Bool
  loadPending : Bool
  subscribed : Bool
deriving DecidableEq

/-- A freshly created record (`getStore` lines 105–110):
`value = undefined`, `repairTo = initial`, `hydrated = false`. -/
def freshCfg {T : Type} (initial : Option T) : Cfg T :=
  { value := .hydrating, repairTo := initial, hydrated := false,
    loadPending := false, subscribed := false }

/-- Observable events of one record, in temporal order of a trace:
`assign v` — `state.value = v`; `notify` — the synchronous listener
loop `notify()`; `persistIssued v` — the call into the durable-store
driver `idbSet(key, v, ns)` is made; `broadcastIssued v removed` —
`postMessage({key, value, removed})` on the channel; `loadIssued` — the
async hydration read of the durable store is started. -/
inductive Ev (T : Type) where
  | assign (v : StoreVal T)
  | notify
  | persistIssued (v : Option T)
  | broadcastIssued (v : Option T) (removed : Bool)
  | loadIssued
deriving DecidableEq

/-- The repaired form of a `setValue` argument:
`isValid(next) ? next : state.repairTo`. -/
def repairedOf {T : Type} (p : Params T) (c : Cfg T) (next : Option T) : Option T :=
  if p.isValid next then next else c.repairTo

/-- `setValue` of the store record (`store-registry.ts` lines 120–136).
The trace follows JavaScript execution order: the assignment happens
first; the async IIFE then runs synchronously up to its first `await`,
which issues the `idbSet` call; then `notify()` runs; the broadcast
`postMessage` fires in a later microtask, after the persist resolves. -/
def setValue {T : Type} (p : Params T) (c : Cfg T) (next : Option T) :
    Cfg T × List (Ev T) :=
  let safe := repairedOf p c next
  if p.isEqual c.value (ofOpt safe) then (c, [])
  else
    ({ c with value := ofOpt safe },
      [Ev.assign (ofOpt safe), Ev.persistIssued safe, Ev.notify] ++
        (if p.isBrowser && p.bcAvail then
          [Ev.broadcastIssued safe safe.isNone] else []))

/-- The synchronous body of `hydrate()` (lines 138–143 and 162–178):
the `hydrated` idempotence guard, the server-side early return, the
start of the async load, and the broadcast subscription. -/
def hydrateCall {T : Type} (p : Params T) (c : Cfg T) : Cfg T × List (Ev T) :=
  if c.hydrated then (c, [])
  else
    let c1 := { c with hydrated := true }
    if p.isBrowser then
      ({ c1 with loadPending := true, subscribed := p.bcAvail }, [Ev.loadIssued])
    else (c1, [])

/-- `(await idbGet<T>(key, ns)) ?? state.repairTo`: the repair target is
substituted when the durable store yields no value. -/
def persistedOf {T : Type} (dur : Option T) (rt : Option T) : Option T :=
  match dur with
  | none => rt
  | some t => some t

/-- The final validated value the async load computes:
`isValid(persisted) ? persisted : state.repairTo`. -/
def finalOf {T : Type} (p : Params T) (rt : Option T) (dur : Option T) : Option T :=
  let persisted := persistedOf dur rt
  if p.isValid persisted then persisted else rt

/-- Completion of the async load inside `hydrate()` (lines 145–160),
with `dur` the value the durable store returned (`none` = absent,
unavailable, or failed).  The assignment to `state.value` and the
`notify()` are unconditional; the write-back is issued exactly when
`!isEqual(persisted, finalVal)`, and it completes before `notify()`
because it is awaited. -/
def hydrateLoad {T : Type} (p : Params T) (c : Cfg T) (dur : Option T) :
    Cfg T × List (Ev T) :=
  if c.loadPending then
    let persisted := persistedOf dur c.repairTo
    let finalVal := finalOf p c.repairTo dur
    ({ c with value := ofOpt finalVal, loadPending := false },
      [Ev.assign (ofOpt finalVal)] ++
        (if p.isEqual (ofOpt persisted) (ofOpt finalVal) then []
         else [Ev.persistIssued finalVal]) ++
      [Ev.notify])
  else (c, [])

/-- A broadcast message `{ key, value, removed }`. -/
structure Msg (T : Type) where
  key : String
  value : Option T
  removed : Bool
deriving DecidableEq

/-- The value the handler adopts from a message: `removed` substitutes
the repair target, then the result is validated/repaired. -/
def msgSafe {T : Type} (p : Params T) (c : Cfg T) (m : Msg T) : Option T :=
  let incoming := if m.removed then c.repairTo else m.value
  if p.isValid incoming then incoming else c.repairTo

/-- The broadcast subscription handler (lines 164–175).  `d = none`
models a falsy `event.data`; a mismatched key is ignored; otherwise the
repaired incoming value is assigned and listeners notified only when it
differs from `state.value` under the equality contract. -/
def handleMsg {T : Type} (p : Params T) (c : Cfg T) (d : Option (Msg T)) :
    Cfg T × List (Ev T) :=
  match d with
  | none => (c, [])
  | some m =>
    if m.key ≠ p.key then (c, [])
    else
      let safe := msgSafe p c m
      if p.isEqual c.value (ofOpt safe) then (c, [])
      else ({ c with value := ofOpt safe }, [Ev.assign (ofOpt safe), Ev.notify])

/-- Delivery of a broadcast message: the handler only exists once
`hydrate` has attached it. -/
def recvMsg {T : Type} (p : Params T) (c : Cfg T) (d : Option (Msg T)) :
    Cfg T × List (Ev T) :=
  if c.subscribed then handleMsg p c d else (c, [])

/-- The record's possible transitions. -/
inductive Act (T : Type) where
  | set (next : Option T)
  | hyd
  | load (dur : Option T)
  | recv (d : Option (Msg T))
deriving DecidableEq

/-- One labelled step of the record. -/
def step {T : Type} (p : Params T) (c : Cfg T) : Act T → Cfg T × List (Ev T)
  | .set next => setValue p c next
  | .hyd => hydrateCall p c
  | .load dur => hydrateLoad p c dur
  | .recv d => recvMsg p c d

/-- Run a sequence of transitions, concatenating the traces. -/
def run {T : Type} (p : Params T) (c : Cfg T) : List (Act T) → Cfg T × List (Ev T)
  | [] => (c, [])
  | a :: as =>
    let r1 := step p c a
    let r2 := run p r1.1 as
    (r2.1, r1.2 ++ r2.2)

/-! ## Event classifiers and counters -/

/-- Is this event a `notify`? -/
def isNotifyEv {T : Type} : Ev T → Bool
  | .notify => true
  | _ => false

/-- Is this event a durable-store write? -/
def isPersistEv {T : Type} : Ev T → Bool
  | .persistIssued _ => true
  | _ => false

/-- Is this event a broadcast send? -/
def isBroadcastEv {T : Type} : Ev T → Bool
  | .broadcastIssued _ _ => true
  | _ => false

/-- Is this event a persistence or broadcast side effect? -/
def isSideEffectEv {T : Type} : Ev T → Bool
  | .persistIssued _ => true
  | .broadcastIssued _ _ => true
  | _ => false

/-- Number of listener notifications in a trace. -/
def countNotify {T : Type} (evs : List (Ev T)) : Nat :=
  (evs.filter isNotifyEv).length

/-- Number of durable-store writes in a trace. -/
def countPersist {T : Type} (evs : List (Ev T)) : Nat :=
  (evs.filter isPersistEv).length

/-- Number of broadcast sends in a trace. -/
def countBroadcast {T : Type} (evs : List (Ev T)) : Nat :=
  (evs.filter isBroadcastEv).length

/-- True when every notification in the trace precedes every
persistence/broadcast side effect: no side effect is followed, anywhere
later in the trace, by a notification. -/
def notifiesBeforeEffects {T : Type} : List (Ev T) → Bool
  | [] => true
  | e :: rest =>
    (if isSideEffectEv e then rest.all (fun x => !isNotifyEv x) else true)
      && notifiesBeforeEffects rest

/-- Does the transition write to `state.value`? -/
def isSetAct {T : Type} : Act T → Bool
  | .set _ => true
  | _ => false

/-- A tri-state value that passes the schema predicate (the sentinel
never does; the others go through `isValid` on their `T | null` form). -/
def validSV {T : Type} (p : Params T) : StoreVal T → Bool
  | .hydrating => false
  | .absent => p.isValid none
  | .val t => p.isValid (some t)

/-- Two successive `setValue` calls with the same argument, with the
concatenated trace. -/
def twoSets {T : Type} (p : Params T) (c : Cfg T) (x : Option T) :
    Cfg T × List (Ev T) :=
  let r1 := setValue p c x
  let r2 := setValue p r1.1 x
  (r2.1, r1.2 ++ r2.2)

/-! ## Concrete instances for counterexamples and witnesses -/

/-- Nat-valued record in a browser with a working channel; every value
valid; the equality contract instantiated to decidable equality. -/
def pNat : Params Nat :=
  { key := "k", isValid := fun _ => true,
    isEqual := fun a b => decide (a = b), isBrowser := true, bcAvail := true }

/-- Like `pNat` but the schema rejects the value `999`. -/
def pReject999 : Params Nat :=
  { pNat with isValid := fun o => !(o == some 999) }

/-- Like `pNat` but outside a browser (no window, no channel). -/
def pNoBrowser : Params Nat :=
  { pNat with isBrowser := false, bcAvail := false }

/-- A record mid-hydration (async load issued, not yet completed), with
repair target `7`. -/
def cPending : Cfg Nat :=
  { value := .hydrating, repairTo := some 7, hydrated := true,
    loadPending := true, subscribed := true }

/-- Like `cPending` but the in-flight state already holds `7` (as if a
`setValue 7` raced the load). -/
def cPendingAt7 : Cfg Nat :=
  { cPending with value := .val 7 }

/-- A hydrated record currently holding `3`, repair target `7`. -/
def cAt3 : Cfg Nat :=
  { value := .val 3, repairTo := some 7, hydrated := true,
    loadPending := false, subscribed := true }

/-- A hydrated record currently holding `5`, repair target `7`. -/
def cAt5 : Cfg Nat :=
  { cAt3 with value := .val 5 }

/-! ## Theorems -/

/-- C8: the equality function used for no-op detection and broadcast
de-duplication coincides, for all pairs of inputs and any deep-equality
routine for the composite case, with the reference relation of the
spec: equal when reference-identical; otherwise unequal when either
operand is absent/missing; otherwise deep structural equality when both
are composite; otherwise strict value equality. -/
theorem isEqual_matches_contract (deepEq : JsVal → JsVal → Bool) (a b : JsVal) :
    isEqualJs deepEq a b = specEqual deepEq a b := by
  cases a <;> cases b <;>
    simp [isEqualJs, specEqual, strictEq, falsy, isAbsent, isComposite, typeofObject]

/-- Splitting a list at a separator absent from both prefixes is
unambiguous. -/
theorem append_sep_cancel {α : Type} [DecidableEq α] {s : α} :
    ∀ {l1 l2 r1 r2 : List α}, s ∉ l1 → s ∉ l2 →
      l1 ++ s :: r1 = l2 ++ s :: r2 → l1 = l2 ∧ r1 = r2 := by
  intro l1
  induction l1 with
  | nil =>
    intro l2 r1 r2 _ h2 h
    cases l2 with
    | nil => simpa using h
    | cons y l2 =>
      simp only [List.nil_append, List.cons_append, List.cons.injEq] at h
      exact absurd (h.1 ▸ List.mem_cons_self y l2) (by simp_all)
  | cons x l1 ih =>
    intro l2 r1 r2 h1 h2 h
    cases l2 with
    | nil =>
      simp only [List.cons_append, List.nil_append, List.cons.injEq] at h
      exact absurd (h.1 ▸ List.mem_cons_self x l1) (by simp_all)
    | cons y l2 =>
      simp only [List.cons_append, List.cons.injEq] at h
      have hrec := ih (by simp_all) (by simp_all) h.2
      exact ⟨by simp [h.1, hrec.1], hrec.2⟩

/-- The character data of a registry key. -/
theorem regKey_data (key : String) (ns : Ns) :
    (regKey key ns).data =
      (ns.dbName.getD DEFAULT_DB).data ++
        '/' :: ((ns.storeName.getD DEFAULT_STORE).data ++ '|' :: key.data) := by
  simp [regKey, String.data_append]

/-- When the (default-applied) database names contain no slash and the
store names no bar, registry keys are equal exactly when the identity
triples are. -/
theorem regKey_eq_iff_of_delimFree (k1 k2 : String) (ns1 ns2 : Ns)
    (h1 : '/' ∉ (ns1.dbName.getD DEFAULT_DB).data)
    (h3 : '|' ∉ (ns1.storeName.getD DEFAULT_STORE).data)
    (h4 : '/' ∉ (ns2.dbName.getD DEFAULT_DB).data)
    (h6 : '|' ∉ (ns2.storeName.getD DEFAULT_STORE).data) :
    regKey k1 ns1 = regKey k2 ns2 ↔ identTriple k1 ns1 = identTriple k2 ns2 := by
  constructor
  · intro h
    have hd : (regKey k1 ns1).data = (regKey k2 ns2).data := by rw [h]
    rw [regKey_data, regKey_data] at hd
    have hsplit := append_sep_cancel h1 h4 hd
    have hsplit2 := append_sep_cancel h3 h6 hsplit.2
    refine Prod.ext ?_ (Prod.ext ?_ ?_) <;>
      simp [identTriple]
    · exact String.ext hsplit.1
    · exact String.ext hsplit2.1
    · exact String.ext hsplit2.2
  · intro h
    simp only [identTriple, Prod.mk.injEq] at h
    simp [regKey, h.1, h.2.1, h.2.2]

/-- C1 (counterexample): two `getStore` requests with distinct identity
triples — `(dbName "a/b", storeName "c", key "k")` versus
`(dbName "a", storeName "b/c", key "k")` — yield the same record,
because both composite registry keys are the string `"a/b/c|k"`.  This
refutes the claim that distinct triples always give distinct records. -/
theorem getStore_distinct_triples_same_record :
    identTriple "k" ⟨some "a/b", some "c"⟩ ≠ identTriple "k" ⟨some "a", some "b/c"⟩
    ∧ (twoRequests "k" ⟨some "a/b", some "c"⟩ "k" ⟨some "a", some "b/c"⟩).1 =
      (twoRequests "k" ⟨some "a/b", some "c"⟩ "k" ⟨some "a", some "b/c"⟩).2 := by
  constructor
  · decide
  · rfl

/-- C1 (amended): two `getStore` requests yield the same record exactly
when their composite registry keys `db ++ "/" ++ st ++ "|" ++ key`
(defaults applied) are equal; equal identity triples always yield the
same record, and when the database names contain no `'/'` and the store
names no `'|'` the record is shared exactly when the three identity
components agree — but not for arbitrary triples, which may collide. -/
theorem getStore_same_record_iff_regKey :
    (∀ k1 ns1 k2 ns2, (twoRequests k1 ns1 k2 ns2).1 = (twoRequests k1 ns1 k2 ns2).2 ↔
        regKey k1 ns1 = regKey k2 ns2)
    ∧ (∀ k1 ns1 k2 ns2, identTriple k1 ns1 = identTriple k2 ns2 →
        (twoRequests k1 ns1 k2 ns2).1 = (twoRequests k1 ns1 k2 ns2).2)
    ∧ (∀ k1 ns1 k2 ns2,
        '/' ∉ (ns1.dbName.getD DEFAULT_DB).data →
        '|' ∉ (ns1.storeName.getD DEFAULT_STORE).data →
        '/' ∉ (ns2.dbName.getD DEFAULT_DB).data →
        '|' ∉ (ns2.storeName.getD DEFAULT_STORE).data →
        ((twoRequests k1 ns1 k2 ns2).1 = (twoRequests k1 ns1 k2 ns2).2 ↔
          identTriple k1 ns1 = identTriple k2 ns2)) := by
  have base : ∀ k1 ns1 k2 ns2,
      (twoRequests k1 ns1 k2 ns2).1 = (twoRequests k1 ns1 k2 ns2).2 ↔
        regKey k1 ns1 = regKey k2 ns2 := by
    intro k1 ns1 k2 ns2
    by_cases h : regKey k1 ns1 = regKey k2 ns2 <;>
      simp [twoRequests, getStoreId, Registry.empty, lookupKey, h]
  refine ⟨base, ?_, ?_⟩
  · intro k1 ns1 k2 ns2 h
    simp only [identTriple, Prod.mk.injEq] at h
    exact (base k1 ns1 k2 ns2).mpr (by simp [regKey, h.1, h.2.1, h.2.2])
  · intro k1 ns1 k2 ns2 h1 h3 h4 h6
    exact (base k1 ns1 k2 ns2).trans (regKey_eq_iff_of_delimFree k1 k2 ns1 ns2 h1 h3 h4 h6)

/-- C1 (witness): the amended theorem applied at concrete requests:
repeating the identical request shares the record, and two requests
with delimiter-free components share the record exactly when the
triples agree (here they differ in `storeName`, so the records
differ). -/
theorem getStore_same_record_iff_regKey_witness :
    (twoRequests "k" ⟨some "a", some "b"⟩ "k" ⟨some "a", some "b"⟩).1 =
      (twoRequests "k" ⟨some "a", some "b"⟩ "k" ⟨some "a", some "b"⟩).2
    ∧ ((twoRequests "k" ⟨some "a", some "b"⟩ "k" ⟨some "a", some "c"⟩).1 =
        (twoRequests "k" ⟨some "a", some "b"⟩ "k" ⟨some "a", some "c"⟩).2 ↔
        identTriple "k" (⟨some "a", some "b"⟩ : Ns) =
          identTriple "k" (⟨some "a", some "c"⟩ : Ns)) :=
  ⟨getStore_same_record_iff_regKey.2.1 "k" ⟨some "a", some "b"⟩ "k" ⟨some "a", some "b"⟩ rfl,
   getStore_same_record_iff_regKey.2.2 "k" ⟨some "a", some "b"⟩ "k" ⟨some "a", some "c"⟩
     (by decide) (by decide) (by decide) (by decide)⟩

/-- C2 (counterexample): a record whose durable store holds no value
(`dur = none`) and whose repair target `7` is valid: completing the load
sets `currentValue` to the repair target but issues ZERO write-backs,
not one — the code compares the absence-substituted value `persisted`
(which already is the repair target) with the final value, so they are
equal and no write-back happens. -/
theorem hydrate_absent_valid_no_writeback :
    pNat.isValid (some 7) = true
    ∧ (hydrateLoad pNat cPending none).1.value = ofOpt (some 7)
    ∧ countPersist (hydrateLoad pNat cPending none).2 = 0
    ∧ ¬ countPersist (hydrateLoad pNat cPending none).2 = 1 := by
  decide

/-- C2 (amended): completion of the hydration load writes back exactly
when the value read from storage, with the repair target substituted
for absence, differs per the equality contract from the final validated
value; any write-back carries the final value.  In particular with no
stored value and a valid repair target (where the two compared values
are one and the same, so the contract's reflexivity applies),
`currentValue` becomes the repair target and no write-back is issued. -/
theorem hydrateLoad_writeback_iff {T : Type} (p : Params T) (c : Cfg T) (dur : Option T)
    (hpend : c.loadPending = true) :
    countPersist (hydrateLoad p c dur).2 =
      (if p.isEqual (ofOpt (persistedOf dur c.repairTo)) (ofOpt (finalOf p c.repairTo dur))
       then 0 else 1)
    ∧ (∀ w, Ev.persistIssued w ∈ (hydrateLoad p c dur).2 → w = finalOf p c.repairTo dur)
    ∧ (dur = none → p.isValid c.repairTo = true →
        p.isEqual (ofOpt c.repairTo) (ofOpt c.repairTo) = true →
        (hydrateLoad p c dur).1.value = ofOpt c.repairTo
        ∧ countPersist (hydrateLoad p c dur).2 = 0) := by
  refine ⟨?_, ?_, ?_⟩
  · simp only [hydrateLoad, hpend, if_true, countPersist]
    split <;> simp [isPersistEv]
  · intro w hw
    simp only [hydrateLoad, hpend, if_true] at hw
    by_cases hc : p.isEqual (ofOpt (persistedOf dur c.repairTo))
        (ofOpt (finalOf p c.repairTo dur)) = true
    · rw [if_pos hc] at hw
      simp at hw
    · rw [if_neg hc] at hw
      simpa using hw
  · intro hdur hval heq
    subst hdur
    have hp : persistedOf (none : Option T) c.repairTo = c.repairTo := rfl
    have hf : finalOf p c.repairTo none = c.repairTo := by
      simp [finalOf, hp, hval]
    simp [hydrateLoad, hpend, hp, hf, heq, countPersist, isPersistEv]

/-- C2 (witness): invalid persisted data `999` under the rejecting
schema is repaired to `7` and written back exactly once. -/
theorem hydrateLoad_writeback_iff_witness :
    countPersist (hydrateLoad pReject999 cPending (some 999)).2 =
      (if pReject999.isEqual (ofOpt (persistedOf (some 999) cPending.repairTo))
          (ofOpt (finalOf pReject999 cPending.repairTo (some 999)))
       then 0 else 1) :=
  (hydrateLoad_writeback_iff pReject999 cPending (some 999) (by decide)).1

/-- C3 (counterexample): a state-changing `setValue` at concrete inputs
produces the trace `[assign, persistIssued, notify, broadcastIssued]`:
the call into the durable-store driver is issued (inside the async IIFE,
which runs synchronously up to its first `await`) BEFORE `notify()`
runs, so the notifications do not precede every persistence side
effect of the call. -/
theorem setValue_persist_before_notify :
    (setValue pNat cAt3 (some 5)).2 =
      [Ev.assign (StoreVal.val 5), Ev.persistIssued (some 5), Ev.notify,
       Ev.broadcastIssued (some 5) false]
    ∧ notifiesBeforeEffects (setValue pNat cAt3 (some 5)).2 = false := by
  decide

/-- C3 (amended): for every state-changing `setValue` the trace is, in
order: the synchronous assignment, the issuing of the durable-store
write, the synchronous listener notification, and — only afterwards,
when a channel exists — the broadcast.  So listeners are notified
synchronously within the call, before the broadcast is issued and
before persistence completes, but after the durable-store write has
been initiated. -/
theorem setValue_event_order {T : Type} (p : Params T) (c : Cfg T) (next : Option T)
    (h : p.isEqual c.value (ofOpt (repairedOf p c next)) = false) :
    (setValue p c next).2 =
      [Ev.assign (ofOpt (repairedOf p c next)), Ev.persistIssued (repairedOf p c next),
        Ev.notify] ++
        (if p.isBrowser && p.bcAvail then
          [Ev.broadcastIssued (repairedOf p c next) (repairedOf p c next).isNone]
         else []) := by
  simp [setValue, h]

/-- C3 (witness): the amended order at a concrete state-changing call. -/
theorem setValue_event_order_witness :
    (setValue pNat cAt3 (some 5)).2 =
      [Ev.assign (ofOpt (repairedOf pNat cAt3 (some 5))),
        Ev.persistIssued (repairedOf pNat cAt3 (some 5)), Ev.notify] ++
        (if pNat.isBrowser && pNat.bcAvail then
          [Ev.broadcastIssued (repairedOf pNat cAt3 (some 5))
            (repairedOf pNat cAt3 (some 5)).isNone]
         else []) :=
  setValue_event_order pNat cAt3 (some 5) (by decide)

/-- C10: completion of the hydration load assigns the validated
persisted value unconditionally — the new value is a function of the
read result and the repair target only, never compared against the
in-flight `state.value`, so any value installed by `setValue` or a
broadcast while the load was pending is overwritten — and `notify()`
runs unconditionally, even when the assigned value equals the previous
one. -/
theorem hydrateLoad_overwrites_unconditionally {T : Type} (p : Params T) (c : Cfg T)
    (dur : Option T) (hpend : c.loadPending = true) :
    (hydrateLoad p c dur).1.value = ofOpt (finalOf p c.repairTo dur)
    ∧ Ev.assign (ofOpt (finalOf p c.repairTo dur)) ∈ (hydrateLoad p c dur).2
    ∧ Ev.notify ∈ (hydrateLoad p c dur).2 := by
  refine ⟨?_, ?_, ?_⟩ <;> simp only [hydrateLoad, hpend, if_true] <;> simp

/-- C10 (witness): a load completing over a racing in-flight value that
already equals the final value still reassigns it and still notifies. -/
theorem hydrateLoad_overwrites_unconditionally_witness :
    (hydrateLoad pNat cPendingAt7 none).1.value = ofOpt (finalOf pNat cPendingAt7.repairTo none)
    ∧ Ev.assign (ofOpt (finalOf pNat cPendingAt7.repairTo none)) ∈
        (hydrateLoad pNat cPendingAt7 none).2
    ∧ Ev.notify ∈ (hydrateLoad pNat cPendingAt7 none).2 :=
  hydrateLoad_overwrites_unconditionally pNat cPendingAt7 none (by decide)

/-- C4: for every value `v` failing validation, `setValue v` (a total
function — no error reaches the caller) leaves `currentValue` equal,
per the equality contract, to the repair target: either the call is the
de-duplication no-op (precisely because the current value already
equals the repair target) or it assigns the repair target; every
durable-store write it issues carries the repair target, and the repair
target itself is untouched.  The reflexivity hypothesis is the `a === b`
fast path of the contract at the repair target. -/
theorem setValue_invalid_repairs {T : Type} (p : Params T) (c : Cfg T) (v : Option T)
    (hinv : p.isValid v = false)
    (hrefl : p.isEqual (ofOpt c.repairTo) (ofOpt c.repairTo) = true) :
    p.isEqual (setValue p c v).1.value (ofOpt c.repairTo) = true
    ∧ ((setValue p c v).1.value = c.value ∨ (setValue p c v).1.value = ofOpt c.repairTo)
    ∧ (∀ w, Ev.persistIssued w ∈ (setValue p c v).2 → w = c.repairTo)
    ∧ (setValue p c v).1.repairTo = c.repairTo := by
  have hsafe : repairedOf p c v = c.repairTo := by simp [repairedOf, hinv]
  by_cases h : p.isEqual c.value (ofOpt c.repairTo) = true
  · simp [setValue, hsafe, h]
  · have h' : p.isEqual c.value (ofOpt c.repairTo) = false := by
      simpa using h
    refine ⟨?_, ?_, ?_, ?_⟩
    · simp only [setValue, hsafe, h', if_false, Bool.false_eq_true]
      simpa using hrefl
    · simp [setValue, hsafe, h']
    · intro w hw
      simp only [setValue, hsafe, h', if_false, Bool.false_eq_true] at hw
      revert hw
      split <;> simp_all
    · simp [setValue, hsafe, h']

/-- C4 (witness): `999` is rejected by the schema of `pReject999`, and
`setValue 999` on a record holding `3` repairs to the target `7`. -/
theorem setValue_invalid_repairs_witness :
    pReject999.isValid (some 999) = false
    ∧ pReject999.isEqual (setValue pReject999 cAt3 (some 999)).1.value
        (ofOpt cAt3.repairTo) = true
    ∧ ((setValue pReject999 cAt3 (some 999)).1.value = cAt3.value
        ∨ (setValue pReject999 cAt3 (some 999)).1.value = ofOpt cAt3.repairTo)
    ∧ (∀ w, Ev.persistIssued w ∈ (setValue pReject999 cAt3 (some 999)).2 →
        w = cAt3.repairTo)
    ∧ (setValue pReject999 cAt3 (some 999)).1.repairTo = cAt3.repairTo :=
  ⟨by decide, setValue_invalid_repairs pReject999 cAt3 (some 999) (by decide) (by decide)⟩

/-- C5 (counterexample): two successive `setValue 5` calls on a record
already holding `5` trigger ZERO notifications, not exactly one — both
calls are de-duplication no-ops.  This refutes the universally
quantified "exactly one notification" part of the claim. -/
theorem setValue_twice_zero_notify :
    countNotify (twoSets pNat cAt5 (some 5)).2 = 0
    ∧ ¬ countNotify (twoSets pNat cAt5 (some 5)).2 = 1 := by
  decide

/-- C5 (amended): when the repaired argument is equal, per the equality
contract, to `currentValue`, `setValue` is a complete no-op (unchanged
configuration, empty trace — no notification, no persistence, no
broadcast); hence two successive `setValue x` calls with the same `x`
trigger at most one notification, at most one persistence and at most
one broadcast — exactly one notification when the first call changes
the state, and zero when it does not. -/
theorem setValue_noop_and_idempotent {T : Type} (p : Params T) (c : Cfg T) (x : Option T)
    (hrefl : ∀ v, p.isEqual v v = true) :
    (p.isEqual c.value (ofOpt (repairedOf p c x)) = true → setValue p c x = (c, []))
    ∧ countNotify (twoSets p c x).2 ≤ 1
    ∧ countPersist (twoSets p c x).2 ≤ 1
    ∧ countBroadcast (twoSets p c x).2 ≤ 1
    ∧ (p.isEqual c.value (ofOpt (repairedOf p c x)) = false →
        countNotify (twoSets p c x).2 = 1) := by
  have hnoop : ∀ c' : Cfg T, p.isEqual c'.value (ofOpt (repairedOf p c' x)) = true →
      setValue p c' x = (c', []) := by
    intro c' h
    simp [setValue, h]
  by_cases h : p.isEqual c.value (ofOpt (repairedOf p c x)) = true
  · have h1 := hnoop c h
    refine ⟨fun _ => h1, ?_, ?_, ?_, ?_⟩ <;>
      simp [twoSets, h1, countNotify, countPersist, countBroadcast, h]
  · have h' : p.isEqual c.value (ofOpt (repairedOf p c x)) = false := by
      simpa using h
    have hfst : setValue p c x =
        ({ c with value := ofOpt (repairedOf p c x) },
          [Ev.assign (ofOpt (repairedOf p c x)),
            Ev.persistIssued (repairedOf p c x), Ev.notify] ++
            (if p.isBrowser && p.bcAvail then
              [Ev.broadcastIssued (repairedOf p c x) (repairedOf p c x).isNone]
             else [])) := by
      simp [setValue, h']
    have hsame : repairedOf p { c with value := ofOpt (repairedOf p c x) } x =
        repairedOf p c x := rfl
    have hsnd : setValue p { c with value := ofOpt (repairedOf p c x) } x =
        ({ c with value := ofOpt (repairedOf p c x) }, []) := by
      apply hnoop
      rw [hsame]
      exact hrefl _
    refine ⟨fun hc => absurd hc (by simp [h']), ?_, ?_, ?_, fun _ => ?_⟩ <;>
      simp only [twoSets, hfst, hsnd, List.append_nil, countNotify, countPersist,
        countBroadcast] <;>
      split <;>
      simp [isNotifyEv, isPersistEv, isBroadcastEv]

/-- C5 (witness): on a record holding `3`, two successive `setValue 5`
calls: the first changes the state, so exactly one notification. -/
theorem setValue_noop_and_idempotent_witness :
    countNotify (twoSets pNat cAt3 (some 5)).2 = 1 :=
  (setValue_noop_and_idempotent pNat cAt3 (some 5) (fun v => by simp [pNat])).2.2.2.2
    (by decide)

/-- C6: the broadcast handler, on any inbound message: a mismatched key
leaves the record untouched with no notification; a `removed` message
drives the value toward the repair target (so never to `absent` unless
the repair target is itself `none`) — it either no-ops because the
current value already equals the repair target, or assigns exactly the
repair target; and in general it assigns (and notifies, in that order)
exactly when the repaired incoming value differs from `currentValue`
under the equality contract. -/
theorem handleMsg_spec {T : Type} (p : Params T) (c : Cfg T) (m : Msg T) :
    (m.key ≠ p.key → handleMsg p c (some m) = (c, []))
    ∧ (m.key = p.key → m.removed = true →
        (p.isEqual c.value (ofOpt c.repairTo) = true → handleMsg p c (some m) = (c, []))
        ∧ (p.isEqual c.value (ofOpt c.repairTo) = false →
            (handleMsg p c (some m)).1.value = ofOpt c.repairTo))
    ∧ (m.key = p.key →
        (p.isEqual c.value (ofOpt (msgSafe p c m)) = true →
          handleMsg p c (some m) = (c, []))
        ∧ (p.isEqual c.value (ofOpt (msgSafe p c m)) = false →
            (handleMsg p c (some m)).1 = { c with value := ofOpt (msgSafe p c m) }
            ∧ (handleMsg p c (some m)).2 =
                [Ev.assign (ofOpt (msgSafe p c m)), Ev.notify])) := by
  refine ⟨?_, ?_, ?_⟩
  · intro hk
    simp [handleMsg, hk]
  · intro hk hrem
    have hsafe : msgSafe p c m = c.repairTo := by
      simp only [msgSafe, hrem, if_true]
      split <;> rfl
    constructor
    · intro he
      simp [handleMsg, hk, hsafe, he]
    · intro he
      simp [handleMsg, hk, hsafe, he]
  · intro hk
    constructor
    · intro he
      simp [handleMsg, hk, he]
    · intro he
      simp [handleMsg, hk, he]

/-- C6 (witness): on a record holding `3` with repair target `7`: a
message for key `"other"` is ignored, and a `removed` message for key
`"k"` moves the value to the repair target `7`, not to `absent`. -/
theorem handleMsg_spec_witness :
    handleMsg pNat cAt3 (some ⟨"other", some 4, false⟩) = (cAt3, [])
    ∧ (handleMsg pNat cAt3 (some ⟨"k", none, true⟩)).1.value = ofOpt cAt3.repairTo :=
  ⟨(handleMsg_spec pNat cAt3 ⟨"other", some 4, false⟩).1 (by decide),
   ((handleMsg_spec pNat cAt3 ⟨"k", none, true⟩).2.1 rfl rfl).2 (by decide)⟩

/-- A coerced `T | null` value is never the hydrating sentinel. -/
theorem ofOpt_ne_hydrating {T : Type} (o : Option T) : ofOpt o ≠ StoreVal.hydrating := by
  cases o <;> simp [ofOpt]

/-- `validSV` agrees with the option-level predicate on coerced values. -/
theorem validSV_ofOpt {T : Type} (p : Params T) (o : Option T) :
    validSV p (ofOpt o) = p.isValid o := by
  cases o <;> simp [validSV, ofOpt]

/-- The repaired `setValue` argument is valid or is the repair target. -/
theorem repairedOf_good {T : Type} (p : Params T) (c : Cfg T) (next : Option T) :
    p.isValid (repairedOf p c next) = true ∨ repairedOf p c next = c.repairTo := by
  by_cases hv : p.isValid next = true
  · exact Or.inl (by simp [repairedOf, hv])
  · exact Or.inr (by simp only [repairedOf]; rw [if_neg hv])

/-- The final hydrated value is valid or is the repair target. -/
theorem finalOf_good {T : Type} (p : Params T) (rt : Option T) (dur : Option T) :
    p.isValid (finalOf p rt dur) = true ∨ finalOf p rt dur = rt := by
  by_cases hv : p.isValid (persistedOf dur rt) = true
  · exact Or.inl (by simp [finalOf, hv])
  · exact Or.inr (by simp only [finalOf]; rw [if_neg hv])

/-- The adopted broadcast value is valid or is the repair target. -/
theorem msgSafe_good {T : Type} (p : Params T) (c : Cfg T) (m : Msg T) :
    p.isValid (msgSafe p c m) = true ∨ msgSafe p c m = c.repairTo := by
  by_cases hv : p.isValid (if m.removed then c.repairTo else m.value) = true
  · exact Or.inl (by simp only [msgSafe]; rw [if_pos hv]; exact hv)
  · exact Or.inr (by simp only [msgSafe]; rw [if_neg hv])

/-- No transition modifies the repair target. -/
theorem step_repairTo {T : Type} (p : Params T) (c : Cfg T) (a : Act T) :
    (step p c a).1.repairTo = c.repairTo := by
  cases a <;>
    simp only [step, setValue, hydrateCall, hydrateLoad, recvMsg, handleMsg] <;>
    (repeat' split) <;> rfl

/-- Each transition either keeps the current value or assigns a coerced
option that is valid or the repair target. -/
theorem step_value_shape {T : Type} (p : Params T) (c : Cfg T) (a : Act T) :
    (step p c a).1.value = c.value ∨
      ∃ o : Option T, (step p c a).1.value = ofOpt o ∧
        (p.isValid o = true ∨ o = c.repairTo) := by
  cases a with
  | set next =>
    simp only [step, setValue]
    split
    · exact Or.inl rfl
    · exact Or.inr ⟨repairedOf p c next, rfl, repairedOf_good p c next⟩
  | hyd =>
    simp only [step, hydrateCall]
    split
    · exact Or.inl rfl
    · split <;> exact Or.inl rfl
  | load dur =>
    simp only [step, hydrateLoad]
    split
    · exact Or.inr ⟨finalOf p c.repairTo dur, rfl, finalOf_good p c.repairTo dur⟩
    · exact Or.inl rfl
  | recv d =>
    cases d with
    | none =>
      simp only [step, recvMsg, handleMsg]
      split <;> exact Or.inl rfl
    | some m =>
      simp only [step, recvMsg, handleMsg]
      split
      · split
        · exact Or.inl rfl
        · split
          · exact Or.inl rfl
          · exact Or.inr ⟨msgSafe p c m, rfl, msgSafe_good p c m⟩
      · exact Or.inl rfl

/-- Every `assign v` event of a transition carries a coerced option
that is valid or the repair target. -/
theorem step_assign_shape {T : Type} (p : Params T) (c : Cfg T) (a : Act T)
    (v : StoreVal T) :
    Ev.assign v ∈ (step p c a).2 →
      ∃ o : Option T, v = ofOpt o ∧ (p.isValid o = true ∨ o = c.repairTo) := by
  cases a with
  | set next =>
    simp only [step, setValue]
    split
    · simp
    · intro h
      rcases List.mem_append.mp h with h | h
      · simp at h
        exact ⟨repairedOf p c next, h, repairedOf_good p c next⟩
      · revert h
        split <;> simp
  | hyd =>
    simp only [step, hydrateCall]
    split
    · simp
    · split <;> simp
  | load dur =>
    simp only [step, hydrateLoad]
    split
    · intro h
      simp only [List.append_assoc, List.cons_append, List.nil_append] at h
      rcases List.mem_cons.mp h with h | h
      · simp at h
        exact ⟨finalOf p c.repairTo dur, h, finalOf_good p c.repairTo dur⟩
      · revert h
        split <;> simp
    · simp
  | recv d =>
    cases d with
    | none =>
      simp only [step, recvMsg, handleMsg]
      split <;> simp
    | some m =>
      simp only [step, recvMsg, handleMsg]
      split
      · split
        · simp
        · split
          · simp
          · intro h
            simp at h
            exact ⟨msgSafe p c m, h, msgSafe_good p c m⟩
      · simp

/-- Runs preserve the repair target. -/
theorem run_repairTo {T : Type} (p : Params T) (c : Cfg T) (acts : List (Act T)) :
    (run p c acts).1.repairTo = c.repairTo := by
  induction acts generalizing c with
  | nil => rfl
  | cons a as ih =>
    simp only [run]
    rw [ih, step_repairTo]

/-- Once the value has left the hydrating sentinel, no run returns it
there. -/
theorem run_value_stays {T : Type} (p : Params T) (c : Cfg T) (acts : List (Act T))
    (h : c.value ≠ StoreVal.hydrating) :
    (run p c acts).1.value ≠ StoreVal.hydrating := by
  induction acts generalizing c with
  | nil => exact h
  | cons a as ih =>
    simp only [run]
    apply ih
    rcases step_value_shape p c a with hs | ⟨o, ho, _⟩
    · rw [hs]; exact h
    · rw [ho]; exact ofOpt_ne_hydrating o

/-- Every value assigned during a run is a non-sentinel that is valid
or equals the (constant) repair target. -/
theorem run_assign_shape {T : Type} (p : Params T) (c : Cfg T) (acts : List (Act T))
    (v : StoreVal T) :
    Ev.assign v ∈ (run p c acts).2 →
      v ≠ StoreVal.hydrating ∧ (validSV p v = true ∨ v = ofOpt c.repairTo) := by
  induction acts generalizing c with
  | nil =>
    intro h
    simp [run] at h
  | cons a as ih =>
    intro h
    simp only [run, List.mem_append] at h
    rcases h with h | h
    · rcases step_assign_shape p c a v h with ⟨o, ho, hgood⟩
      subst ho
      refine ⟨ofOpt_ne_hydrating o, ?_⟩
      rcases hgood with hv | hrt
      · exact Or.inl (by rw [validSV_ofOpt]; exact hv)
      · exact Or.inr (by rw [hrt])
    · have hrec := ih (step p c a).1 h
      rw [step_repairTo] at hrec
      exact hrec

/-- C7: along every sequence of operations, once `currentValue` has
left the hydrating sentinel it never returns to it, and every value
ever assigned to `currentValue` is itself non-sentinel and either
satisfies the validation predicate or is the record's (unchanging)
repair target. -/
theorem storeRecord_invariants {T : Type} (p : Params T) (c : Cfg T)
    (acts : List (Act T)) :
    (c.value ≠ StoreVal.hydrating → (run p c acts).1.value ≠ StoreVal.hydrating)
    ∧ (∀ v, Ev.assign v ∈ (run p c acts).2 →
        v ≠ StoreVal.hydrating ∧ (validSV p v = true ∨ v = ofOpt c.repairTo)) :=
  ⟨run_value_stays p c acts, fun v => run_assign_shape p c acts v⟩

/-- C7 (witness): a concrete run — one `setValue 5` on a record holding
`3` — keeps the value out of the sentinel, and its one assigned value
`5` is validated. -/
theorem storeRecord_invariants_witness :
    (run pNat cAt3 [Act.set (some 5)]).1.value ≠ StoreVal.hydrating
    ∧ (StoreVal.val 5 ≠ StoreVal.hydrating
        ∧ (validSV pNat (StoreVal.val 5) = true
            ∨ StoreVal.val 5 = ofOpt cAt3.repairTo)) :=
  ⟨(storeRecord_invariants pNat cAt3 [Act.set (some 5)]).1 (by decide),
   (storeRecord_invariants pNat cAt3 [Act.set (some 5)]).2 (StoreVal.val 5) (by decide)⟩

/-- In a non-browser context, non-`setValue` transitions freeze the
value and keep the asynchronous machinery off. -/
theorem step_nonbrowser_frozen {T : Type} (p : Params T) (c : Cfg T) (a : Act T)
    (hb : p.isBrowser = false) (h2 : c.loadPending = false) (h3 : c.subscribed = false)
    (hset : isSetAct a = false) :
    (step p c a).1.value = c.value ∧ (step p c a).1.loadPending = false
      ∧ (step p c a).1.subscribed = false := by
  cases a with
  | set next => simp [isSetAct] at hset
  | hyd =>
    simp only [step, hydrateCall, hb]
    split
    · exact ⟨rfl, h2, h3⟩
    · simp [h2, h3]
  | load dur =>
    simp only [step, hydrateLoad, h2]
    simp [h2, h3]
  | recv d =>
    simp only [step, recvMsg, h3]
    simp [h2, h3]

/-- C9: `hydrate()` is idempotent — once the `hydrated` flag is set,
every call is a complete no-op — and in a non-browser context the first
call only sets the flag (no load issued, no subscription, empty trace),
after which any run of hydration calls, load completions and broadcast
deliveries (everything except an explicit local `setValue`) leaves
`currentValue` at the hydrating sentinel forever. -/
theorem hydrate_idempotent_nonbrowser {T : Type} :
    (∀ (p : Params T) (c : Cfg T), c.hydrated = true → hydrateCall p c = (c, []))
    ∧ (∀ (p : Params T) (c : Cfg T), p.isBrowser = false → c.hydrated = false →
        hydrateCall p c = ({ c with hydrated := true }, []))
    ∧ (∀ (p : Params T) (c : Cfg T) (acts : List (Act T)), p.isBrowser = false →
        c.value = StoreVal.hydrating → c.loadPending = false → c.subscribed = false →
        (∀ a ∈ acts, isSetAct a = false) →
        (run p c acts).1.value = StoreVal.hydrating) := by
  refine ⟨?_, ?_, ?_⟩
  · intro p c h
    simp [hydrateCall, h]
  · intro p c hb hh
    simp [hydrateCall, hh, hb]
  · intro p c acts hb
    induction acts generalizing c with
    | nil => intro h1 _ _ _; exact h1
    | cons a as ih =>
      intro h1 h2 h3 hno
      simp only [run]
      have hfr := step_nonbrowser_frozen p c a hb h2 h3 (hno a (List.mem_cons_self a as))
      exact ih (step p c a).1 (hfr.1.trans h1) hfr.2.1 hfr.2.2
        (fun x hx => hno x (List.mem_cons_of_mem a hx))

/-- C9 (witness): a fresh record outside a browser: a repeated
`hydrate` is a no-op, the first call only set the flag, and a run of
hydration/load/broadcast activity leaves the sentinel in place. -/
theorem hydrate_idempotent_nonbrowser_witness :
    hydrateCall pNoBrowser { freshCfg (some 7) with hydrated := true } =
      ({ freshCfg (some 7) with hydrated := true }, [])
    ∧ hydrateCall pNoBrowser (freshCfg (some 7)) =
        ({ freshCfg (some 7) with hydrated := true }, [])
    ∧ (run pNoBrowser (freshCfg (some 7))
        [Act.hyd, Act.load none, Act.recv (some ⟨"k", some 3, true⟩)]).1.value =
      StoreVal.hydrating :=
  ⟨(@hydrate_idempotent_nonbrowser Nat).1 pNoBrowser
      { freshCfg (some 7) with hydrated := true } rfl,
   (@hydrate_idempotent_nonbrowser Nat).2.1 pNoBrowser (freshCfg (some 7)) rfl rfl,
   (@hydrate_idempotent_nonbrowser Nat).2.2 pNoBrowser (freshCfg (some 7))
     [Act.hyd, Act.load none, Act.recv (some ⟨"k", some 3, true⟩)] rfl rfl rfl rfl
     (by decide)⟩

end LocalDb
